import Mathlib

/-!
Shallow embedding of the batch gradient-descent routine found in
`Lectures/Supervised Learning/6. Gradient Descent - Complete.ipynb`.

The source cell is (verbatim, numpy):

  for i in range(max_iter):
      beta_star_new = beta_star - alpha*(2/len(X))*X.transpose().dot(X.dot(beta_star) - y.reshape(-1,1))
      if np.sum(np.power(beta_star_new - beta_star,2))/2 < tol:
          beta_hat = beta_star_new
          break
      else:
          beta_star = beta_star_new
      if i + 1 == max_iter:
          print("Maximum iterations reached before convergence.")
  print("Went through", i, "iterations")
  print("beta_hat =")
  print(beta_hat)

We model the numeric arrays over `ℚ` (the routine only uses ring
operations, division by constants and an order comparison), the loop as a
structural recursion on the remaining iteration budget, and the console
print that sits inside the loop body as a boolean flag of the final state.
`beta_hat` is an `Option`, `none` modelling the fact that the Python name
is never assigned unless the tolerance test succeeds (so that the final
`print(beta_hat)` raises `NameError` on a non-convergent run).
-/

open Matrix

namespace GD

/-- numpy `A.dot(v)` of a 2-D array with a column vector, elementwise:
`(A.dot(v))[i] = sum_j A[i,j] * v[j]`. -/
def npDot {a b : ℕ} (A : Matrix (Fin a) (Fin b) ℚ) (v : Fin b → ℚ) : Fin a → ℚ :=
  fun i => ∑ j, A i j * v j

/-- numpy `A.transpose()`. -/
def npTr {a b : ℕ} (A : Matrix (Fin a) (Fin b) ℚ) : Matrix (Fin b) (Fin a) ℚ :=
  fun j i => A i j

/-- The loop body's proposal, translated from
`beta_star - alpha*(2/len(X))*X.transpose().dot(X.dot(beta_star) - y.reshape(-1,1))`.
`len(X)` is the number `n` of rows of `X`; `y.reshape(-1,1)` turns `y` into a
column, which is the identity in our vector representation. -/
def gdStep {n k : ℕ} (X : Matrix (Fin n) (Fin k) ℚ) (y : Fin n → ℚ) (alpha : ℚ)
    (beta : Fin k → ℚ) : Fin k → ℚ :=
  fun j => beta j - alpha * (2 / (n : ℚ)) * npDot (npTr X) (fun i => npDot X beta i - y i) j

/-- The convergence statistic `np.sum(np.power(beta_star_new - beta_star, 2))/2`. -/
def distStat {k : ℕ} (bn b : Fin k → ℚ) : ℚ := (∑ j, (bn j - b j) ^ 2) / 2

/-- Observable final state of one run of the notebook cell.
`beta_star` is the Python variable of the same name when the loop exits;
`beta_hat` is `some` of the accepted estimate exactly when the tolerance
test succeeded (otherwise the Python name is unassigned and the trailing
`print(beta_hat)` raises `NameError`); `lastIndex` is the Python loop
variable `i` after the loop, the number printed by
`print("Went through", i, "iterations")`; `printedNotice` records whether
`print("Maximum iterations reached before convergence.")` — which sits
inside the loop body — was executed; `itersExecuted` counts how many times
the loop body ran. -/
structure GDResult (k : ℕ) where
  beta_star : Fin k → ℚ
  beta_hat : Option (Fin k → ℚ)
  lastIndex : ℕ
  converged : Bool
  printedNotice : Bool
  itersExecuted : ℕ

/-- The `for i in range(max_iter)` loop, one constructor step per loop-body
execution. `fuel` is the number of loop indices still to be visited and `i`
the current index, so a call maintains `fuel + i = M`. The `fuel = 0` case
is the loop ending by exhausting its range without a body execution (only
reachable from `gdRun` when `M = 0`). -/
def gdLoopAux {n k : ℕ} (X : Matrix (Fin n) (Fin k) ℚ) (y : Fin n → ℚ)
    (alpha tol : ℚ) (M : ℕ) : ℕ → ℕ → (Fin k → ℚ) → GDResult k
  | 0, i, beta => ⟨beta, none, i - 1, false, false, i⟩
  | fuel + 1, i, beta =>
    let bn := gdStep X y alpha beta
    if distStat bn beta < tol then
      ⟨beta, some bn, i, true, false, i + 1⟩
    else if i + 1 = M then
      ⟨bn, none, i, false, true, i + 1⟩
    else
      gdLoopAux X y alpha tol M fuel (i + 1) bn

/-- One full run of the notebook cell's loop. -/
def gdRun {n k : ℕ} (X : Matrix (Fin n) (Fin k) ℚ) (y : Fin n → ℚ)
    (alpha tol : ℚ) (M : ℕ) (beta0 : Fin k → ℚ) : GDResult k :=
  gdLoopAux X y alpha tol M M 0 beta0

/-- The sequence of estimates the loop would follow while the tolerance
test keeps failing: `betaTraj t` is the estimate held in `beta_star` when
the body runs for index `t`. -/
def betaTraj {n k : ℕ} (X : Matrix (Fin n) (Fin k) ℚ) (y : Fin n → ℚ) (alpha : ℚ)
    (beta0 : Fin k → ℚ) (t : ℕ) : Fin k → ℚ :=
  (gdStep X y alpha)^[t] beta0

/-- Mean squared error, as displayed in the notebook's derivation:
`ℓ(β) = (1/n) ∑ᵢ (y⁽ⁱ⁾ − X⁽ⁱ⁾β)²`. -/
def mse {n k : ℕ} (X : Matrix (Fin n) (Fin k) ℚ) (y : Fin n → ℚ) (beta : Fin k → ℚ) : ℚ :=
  (∑ i, (y i - (X *ᵥ beta) i) ^ 2) / (n : ℚ)

/-- The spec's gradient expression `g = (2/n) · Xᵗ · (X·β − y)`, written
with the generic matrix-algebra operations (not the numpy ones). -/
def specGrad {n k : ℕ} (X : Matrix (Fin n) (Fin k) ℚ) (y : Fin n → ℚ)
    (beta : Fin k → ℚ) : Fin k → ℚ :=
  (2 / (n : ℚ)) • (Xᵀ *ᵥ (X *ᵥ beta - y))

/-!
A second, shape-observable translation of the same source lines, used for
the shape-validation claims. Here arrays are plain lists, so a length
mismatch between `y` and the rows of `X` is expressible, and the numpy
operations carry their run-time shape behavior: `dot` checks alignment and
elementwise subtraction of two column arrays broadcasts a length-1 operand
(numpy broadcasting), raising a generic `ValueError` otherwise. The source
performs no validation of its own, so the only errors are the ones these
library operations raise.
-/

/-- numpy elementwise subtraction of two column arrays `(la,1) - (lb,1)`:
equal lengths subtract elementwise, a length-1 operand broadcasts, and any
other combination raises numpy's generic broadcasting `ValueError`. -/
def npColSub (a b : List ℚ) : Except String (List ℚ) :=
  if a.length = b.length then Except.ok (List.zipWith (fun x z => x - z) a b)
  else if b.length = 1 then Except.ok (a.map (fun x => x - b.headI))
  else if a.length = 1 then Except.ok (b.map (fun z => a.headI - z))
  else Except.error "operands could not be broadcast together"

/-- numpy `A.dot(v)` for a list-of-rows matrix and a column vector: raises
`shapes not aligned` unless every row has the vector's length. -/
def npDotL (A : List (List ℚ)) (v : List ℚ) : Except String (List ℚ) :=
  if ∀ row ∈ A, row.length = v.length then
    Except.ok (A.map (fun row => (List.zipWith (fun x z => x * z) row v).sum))
  else Except.error "shapes not aligned"

/-- numpy `A.transpose()` of a rectangular list-of-rows matrix. -/
def npTrL (A : List (List ℚ)) : List (List ℚ) :=
  (List.range A.headI.length).map (fun j => A.map (fun row => row.getD j 0))

/-- The loop body's proposal at list level, with the numpy shape errors
propagated: `X.dot(beta)`, then the broadcasting subtraction against
`y.reshape(-1,1)`, then `X.transpose().dot(...)`, then the elementwise
update. -/
def gdStepL (X : List (List ℚ)) (y : List ℚ) (alpha : ℚ) (beta : List ℚ) :
    Except String (List ℚ) :=
  match npDotL X beta with
  | Except.error e => Except.error e
  | Except.ok pred =>
    match npColSub pred y with
    | Except.error e => Except.error e
    | Except.ok resid =>
      match npDotL (npTrL X) resid with
      | Except.error e => Except.error e
      | Except.ok grad =>
        Except.ok (List.zipWith (fun b g => b - alpha * (2 / (X.length : ℚ)) * g) beta grad)

/-- The loop at list level; the result triple is
(final estimate, final loop index, converged flag). -/
def gdLoopAuxL (X : List (List ℚ)) (y : List ℚ) (alpha tol : ℚ) (M : ℕ) :
    ℕ → ℕ → List ℚ → Except String (List ℚ × ℕ × Bool)
  | 0, i, beta => Except.ok (beta, i - 1, false)
  | fuel + 1, i, beta =>
    match gdStepL X y alpha beta with
    | Except.error e => Except.error e
    | Except.ok bn =>
      if ((List.zipWith (fun x z => (x - z) ^ 2) bn beta).sum) / 2 < tol then
        Except.ok (bn, i, true)
      else if i + 1 = M then
        Except.ok (bn, i, false)
      else
        gdLoopAuxL X y alpha tol M fuel (i + 1) bn

/-- One full run at list level. -/
def gdRunL (X : List (List ℚ)) (y : List ℚ) (alpha tol : ℚ) (M : ℕ) (beta0 : List ℚ) :
    Except String (List ℚ × ℕ × Bool) :=
  gdLoopAuxL X y alpha tol M M 0 beta0

/-- The loop's tolerance test at step `t` of the trajectory: the condition
of the `break` when the body runs at index `t` without an earlier break. -/
abbrev tolHit {n k : ℕ} (X : Matrix (Fin n) (Fin k) ℚ) (y : Fin n → ℚ)
    (alpha tol : ℚ) (beta0 : Fin k → ℚ) (t : ℕ) : Prop :=
  distStat (gdStep X y alpha (betaTraj X y alpha beta0 t)) (betaTraj X y alpha beta0 t) < tol

lemma betaTraj_zero {n k : ℕ} (X : Matrix (Fin n) (Fin k) ℚ) (y : Fin n → ℚ)
    (alpha : ℚ) (beta0 : Fin k → ℚ) : betaTraj X y alpha beta0 0 = beta0 := rfl

lemma betaTraj_succ {n k : ℕ} (X : Matrix (Fin n) (Fin k) ℚ) (y : Fin n → ℚ)
    (alpha : ℚ) (beta0 : Fin k → ℚ) (t : ℕ) :
    betaTraj X y alpha beta0 (t + 1) = gdStep X y alpha (betaTraj X y alpha beta0 t) :=
  Function.iterate_succ_apply' (gdStep X y alpha) t beta0

/-- Refinement of the numpy update line to the spec's matrix-algebra form. -/
lemma gdStep_spec {n k : ℕ} (X : Matrix (Fin n) (Fin k) ℚ) (y : Fin n → ℚ)
    (alpha : ℚ) (beta : Fin k → ℚ) :
    gdStep X y alpha beta = beta - alpha • specGrad X y beta := by
  funext j
  simp only [gdStep, specGrad, npDot, npTr, Matrix.mulVec, Matrix.dotProduct,
    Matrix.transpose_apply, Pi.sub_apply, Pi.smul_apply, smul_eq_mul]
  ring

lemma gdStep_eq_sub_smul {n k : ℕ} (X : Matrix (Fin n) (Fin k) ℚ) (y : Fin n → ℚ)
    (alpha : ℚ) (beta : Fin k → ℚ) :
    gdStep X y alpha beta =
      beta - (alpha * (2 / (n : ℚ))) • (Xᵀ *ᵥ (X *ᵥ beta - y)) := by
  rw [gdStep_spec]
  unfold specGrad
  rw [smul_smul]

/-- Summation form of the adjoint identity `⟨u, Xv⟩ = ⟨Xᵗu, v⟩`. -/
lemma sum_mul_mulVec {n k : ℕ} (X : Matrix (Fin n) (Fin k) ℚ) (u : Fin n → ℚ)
    (v : Fin k → ℚ) :
    ∑ i, u i * (X *ᵥ v) i = ∑ j, (Xᵀ *ᵥ u) j * v j := by
  simp only [Matrix.mulVec, Matrix.dotProduct, Matrix.transpose_apply,
    Finset.mul_sum, Finset.sum_mul]
  rw [Finset.sum_comm]
  refine Finset.sum_congr rfl fun j _ => Finset.sum_congr rfl fun i _ => by ring

/-- The loop body runs at most `fuel` more times. -/
lemma gdLoopAux_iters_le {n k : ℕ} (X : Matrix (Fin n) (Fin k) ℚ) (y : Fin n → ℚ)
    (alpha tol : ℚ) (M : ℕ) :
    ∀ fuel i beta, (gdLoopAux X y alpha tol M fuel i beta).itersExecuted ≤ i + fuel := by
  intro fuel
  induction fuel with
  | zero => intro i beta; simp [gdLoopAux]
  | succ f ih =>
    intro i beta
    simp only [gdLoopAux]
    by_cases h1 : distStat (gdStep X y alpha beta) beta < tol
    · rw [if_pos h1]
      show i + 1 ≤ i + (f + 1)
      omega
    · rw [if_neg h1]
      by_cases h2 : i + 1 = M
      · rw [if_pos h2]
        show i + 1 ≤ i + (f + 1)
        omega
      · rw [if_neg h2]
        have := ih (i + 1) (gdStep X y alpha beta)
        omega

/-- A converged run never executed the in-loop notice print. -/
lemma gdLoopAux_conv_not_printed {n k : ℕ} (X : Matrix (Fin n) (Fin k) ℚ)
    (y : Fin n → ℚ) (alpha tol : ℚ) (M : ℕ) :
    ∀ fuel i beta, (gdLoopAux X y alpha tol M fuel i beta).converged = true →
      (gdLoopAux X y alpha tol M fuel i beta).printedNotice = false := by
  intro fuel
  induction fuel with
  | zero => intro i beta _; simp [gdLoopAux]
  | succ f ih =>
    intro i beta
    simp only [gdLoopAux]
    by_cases h1 : distStat (gdStep X y alpha beta) beta < tol
    · rw [if_pos h1]; intro _; rfl
    · rw [if_neg h1]
      by_cases h2 : i + 1 = M
      · rw [if_pos h2]; intro h; exact absurd h (by simp)
      · rw [if_neg h2]; exact ih (i + 1) (gdStep X y alpha beta)

/-- If the tolerance test fails at every remaining index, the loop runs its
whole range, prints the notice on the final body execution, leaves the last
proposal in `beta_star`, never assigns `beta_hat`, and ends with the loop
index `M - 1`. -/
lemma gdLoopAux_nonconv {n k : ℕ} (X : Matrix (Fin n) (Fin k) ℚ) (y : Fin n → ℚ)
    (alpha tol : ℚ) (M : ℕ) (beta0 : Fin k → ℚ) :
    ∀ fuel i, fuel + i = M → 1 ≤ fuel →
      (∀ t, i ≤ t → t < M → ¬ tolHit X y alpha tol beta0 t) →
      gdLoopAux X y alpha tol M fuel i (betaTraj X y alpha beta0 i) =
        ⟨betaTraj X y alpha beta0 M, none, M - 1, false, true, M⟩ := by
  intro fuel
  induction fuel with
  | zero => intro i _ h1 _; omega
  | succ f ih =>
    intro i hM _ hmiss
    have hiM : i < M := by omega
    have hP : ¬ tolHit X y alpha tol beta0 i := hmiss i le_rfl hiM
    simp only [gdLoopAux]
    rw [if_neg hP, ← betaTraj_succ]
    by_cases h2 : i + 1 = M
    · rw [if_pos h2, ← h2]
      simp
    · rw [if_neg h2]
      have hf : 1 ≤ f := by omega
      have := ih (i + 1) (by omega) hf (fun t ht htM => hmiss t (by omega) htM)
      exact this

/-- If the tolerance test first succeeds at index `t0` (within range), the
loop breaks there: it accepts the proposal as `beta_hat`, leaves `beta_star`
at the previous estimate, ends with loop index `t0`, does not print the
notice, and executes `t0 + 1` body iterations. -/
lemma gdLoopAux_conv {n k : ℕ} (X : Matrix (Fin n) (Fin k) ℚ) (y : Fin n → ℚ)
    (alpha tol : ℚ) (M : ℕ) (beta0 : Fin k → ℚ) (t0 : ℕ) (ht0M : t0 < M)
    (hhit : tolHit X y alpha tol beta0 t0)
    (hmin : ∀ s, s < t0 → ¬ tolHit X y alpha tol beta0 s) :
    ∀ fuel i, fuel + i = M → i ≤ t0 →
      gdLoopAux X y alpha tol M fuel i (betaTraj X y alpha beta0 i) =
        ⟨betaTraj X y alpha beta0 t0, some (betaTraj X y alpha beta0 (t0 + 1)), t0,
          true, false, t0 + 1⟩ := by
  intro fuel
  induction fuel with
  | zero => intro i h1 h2; omega
  | succ f ih =>
    intro i hM hle
    simp only [gdLoopAux]
    by_cases hP : tolHit X y alpha tol beta0 i
    · have hit0 : i = t0 := by
        rcases lt_or_eq_of_le hle with h | h
        · exact absurd hP (hmin i h)
        · exact h
      subst hit0
      rw [if_pos hP, ← betaTraj_succ]
    · have hlt : i < t0 := by
        rcases lt_or_eq_of_le hle with h | h
        · exact h
        · exact absurd (h ▸ hhit) hP
      have h2 : ¬ i + 1 = M := by omega
      rw [if_neg hP, if_neg h2, ← betaTraj_succ]
      exact ih (i + 1) (by omega) (by omega)

/-- `gdRun` when the tolerance test never succeeds within the range. -/
lemma gdRun_eq_of_no_hit {n k : ℕ} (X : Matrix (Fin n) (Fin k) ℚ) (y : Fin n → ℚ)
    (alpha tol : ℚ) (M : ℕ) (beta0 : Fin k → ℚ) (hM : 1 ≤ M)
    (hmiss : ∀ t, t < M → ¬ tolHit X y alpha tol beta0 t) :
    gdRun X y alpha tol M beta0 =
      ⟨betaTraj X y alpha beta0 M, none, M - 1, false, true, M⟩ :=
  gdLoopAux_nonconv X y alpha tol M beta0 M 0 (by omega) hM (fun t _ => hmiss t)

/-- `gdRun` when the tolerance test first succeeds at index `t0 < M`. -/
lemma gdRun_eq_of_first_hit {n k : ℕ} (X : Matrix (Fin n) (Fin k) ℚ) (y : Fin n → ℚ)
    (alpha tol : ℚ) (M : ℕ) (beta0 : Fin k → ℚ) (t0 : ℕ) (ht0M : t0 < M)
    (hhit : tolHit X y alpha tol beta0 t0)
    (hmin : ∀ s, s < t0 → ¬ tolHit X y alpha tol beta0 s) :
    gdRun X y alpha tol M beta0 =
      ⟨betaTraj X y alpha beta0 t0, some (betaTraj X y alpha beta0 (t0 + 1)), t0,
        true, false, t0 + 1⟩ :=
  gdLoopAux_conv X y alpha tol M beta0 t0 ht0M hhit hmin M 0 (by omega) (Nat.zero_le _)

/-- Complete case split on a run with a positive iteration budget. -/
lemma gdRun_cases {n k : ℕ} (X : Matrix (Fin n) (Fin k) ℚ) (y : Fin n → ℚ)
    (alpha tol : ℚ) (M : ℕ) (beta0 : Fin k → ℚ) (hM : 1 ≤ M) :
    ((∀ t, t < M → ¬ tolHit X y alpha tol beta0 t) ∧
      gdRun X y alpha tol M beta0 =
        ⟨betaTraj X y alpha beta0 M, none, M - 1, false, true, M⟩) ∨
    (∃ t0, t0 < M ∧ tolHit X y alpha tol beta0 t0 ∧
      (∀ s, s < t0 → ¬ tolHit X y alpha tol beta0 s) ∧
      gdRun X y alpha tol M beta0 =
        ⟨betaTraj X y alpha beta0 t0, some (betaTraj X y alpha beta0 (t0 + 1)), t0,
          true, false, t0 + 1⟩) := by
  by_cases h : ∃ t, t < M ∧ tolHit X y alpha tol beta0 t
  · right
    have hex : ∃ t, tolHit X y alpha tol beta0 t := by
      obtain ⟨t, _, ht⟩ := h
      exact ⟨t, ht⟩
    obtain ⟨t, htM, _⟩ := h
    refine ⟨Nat.find hex, ?_, Nat.find_spec hex, ?_, ?_⟩
    · exact lt_of_le_of_lt (Nat.find_le (by assumption)) htM
    · intro s hs
      exact Nat.find_min hex hs
    · exact gdRun_eq_of_first_hit X y alpha tol M beta0 (Nat.find hex)
        (lt_of_le_of_lt (Nat.find_le (by assumption)) htM) (Nat.find_spec hex)
        (fun s hs => Nat.find_min hex hs)
  · left
    push_neg at h
    exact ⟨h, gdRun_eq_of_no_hit X y alpha tol M beta0 hM h⟩

/-- Descent inequality for one update: if `0 ≤ alpha`, `L` bounds the
Rayleigh quotient of `XᵗX`, and `alpha * L ≤ n`, the mean squared error
does not increase. -/
lemma mse_step_le {n k : ℕ} (X : Matrix (Fin n) (Fin k) ℚ) (y : Fin n → ℚ)
    (alpha L : ℚ) (beta : Fin k → ℚ) (hn : 0 < n) (ha : 0 ≤ alpha)
    (hL : ∀ v : Fin k → ℚ, ((Xᵀ * X) *ᵥ v) ⬝ᵥ v ≤ L * (v ⬝ᵥ v))
    (haL : alpha * L ≤ (n : ℚ)) :
    mse X y (gdStep X y alpha beta) ≤ mse X y beta := by
  have hn' : (0 : ℚ) < (n : ℚ) := by exact_mod_cast hn
  set w : Fin k → ℚ := Xᵀ *ᵥ (X *ᵥ beta - y) with hw
  set t : ℚ := alpha * (2 / (n : ℚ)) with ht
  have ht0 : 0 ≤ t := mul_nonneg ha (by positivity)
  have htL : t * L ≤ 2 := by
    have hrw : t * L = 2 * (alpha * L) / (n : ℚ) := by rw [ht]; ring
    rw [hrw, div_le_iff₀ hn']
    nlinarith
  have hstep : gdStep X y alpha beta = beta - t • w := by
    rw [gdStep_eq_sub_smul, ht, hw]
  rw [hstep]
  unfold mse
  have hXb : X *ᵥ (beta - t • w) = X *ᵥ beta - t • (X *ᵥ w) := by
    rw [Matrix.mulVec_sub, Matrix.mulVec_smul]
  rw [hXb]
  set r : Fin n → ℚ := fun i => (X *ᵥ beta) i - y i with hr
  have hsummand : ∀ i : Fin n, (y i - (X *ᵥ beta - t • (X *ᵥ w)) i) ^ 2 =
      r i ^ 2 - 2 * t * (r i * (X *ᵥ w) i) + t ^ 2 * ((X *ᵥ w) i * (X *ᵥ w) i) := by
    intro i
    simp only [hr, Pi.sub_apply, Pi.smul_apply, smul_eq_mul]
    ring
  have hsum1 : ∑ i, (y i - (X *ᵥ beta - t • (X *ᵥ w)) i) ^ 2 =
      (∑ i, r i ^ 2) - 2 * t * (∑ i, r i * (X *ᵥ w) i) +
        t ^ 2 * (∑ i, (X *ᵥ w) i * (X *ᵥ w) i) := by
    rw [Finset.sum_congr rfl (fun i _ => hsummand i), Finset.sum_add_distrib,
      Finset.sum_sub_distrib, ← Finset.mul_sum, ← Finset.mul_sum]
  have hsum0 : ∑ i, (y i - (X *ᵥ beta) i) ^ 2 = ∑ i, r i ^ 2 := by
    refine Finset.sum_congr rfl fun i _ => ?_
    simp only [hr]
    ring
  have hrfun : (fun i => (X *ᵥ beta) i - y i) = X *ᵥ beta - y := by
    funext i
    simp
  have hS1 : ∑ i, r i * (X *ᵥ w) i = ∑ j, w j * w j := by
    rw [sum_mul_mulVec]
    refine Finset.sum_congr rfl fun j _ => ?_
    have : Xᵀ *ᵥ r = w := by rw [hr, hrfun, hw]
    rw [this]
  have hS2 : ∑ i, (X *ᵥ w) i * (X *ᵥ w) i ≤ L * ∑ j, w j * w j := by
    rw [sum_mul_mulVec]
    have hmm : Xᵀ *ᵥ (X *ᵥ w) = (Xᵀ * X) *ᵥ w := by
      rw [Matrix.mulVec_mulVec]
    rw [hmm]
    have := hL w
    simpa [Matrix.dotProduct] using this
  set W : ℚ := ∑ j, w j * w j with hW
  have hW0 : 0 ≤ W := Finset.sum_nonneg fun j _ => mul_self_nonneg _
  rw [hsum1, hsum0, hS1]
  have hnum : (∑ i, r i ^ 2) - 2 * t * W + t ^ 2 * (∑ i, (X *ᵥ w) i * (X *ᵥ w) i) ≤
      ∑ i, r i ^ 2 := by
    have h1 : t ^ 2 * (∑ i, (X *ᵥ w) i * (X *ᵥ w) i) ≤ t ^ 2 * (L * W) :=
      mul_le_mul_of_nonneg_left hS2 (sq_nonneg t)
    nlinarith [mul_nonneg ht0 hW0, mul_le_mul_of_nonneg_left htL (mul_nonneg ht0 hW0)]
  exact div_le_div_of_nonneg_right hnum hn'.le

/-- With a zero learning rate the proposal is the current estimate. -/
lemma gdStep_zero {n k : ℕ} (X : Matrix (Fin n) (Fin k) ℚ) (y : Fin n → ℚ)
    (beta : Fin k → ℚ) : gdStep X y 0 beta = beta := by
  funext j
  simp [gdStep]

lemma distStat_self {k : ℕ} (beta : Fin k → ℚ) : distStat beta beta = 0 := by
  simp [distStat]

/-- With `alpha = 0` the tolerance test already succeeds at the first body
execution (any positive tolerance). -/
lemma tolHit_zero_alpha {n k : ℕ} (X : Matrix (Fin n) (Fin k) ℚ) (y : Fin n → ℚ)
    (tol : ℚ) (beta0 : Fin k → ℚ) (htol : 0 < tol) : tolHit X y 0 tol beta0 0 := by
  show distStat (gdStep X y 0 (betaTraj X y 0 beta0 0)) (betaTraj X y 0 beta0 0) < tol
  rw [betaTraj_zero, gdStep_zero, distStat_self]
  exact htol

/-- A zero learning rate makes the run break out converged on the very
first iteration, returning the unchanged initial guess. -/
lemma gdRun_zero_alpha {n k : ℕ} (X : Matrix (Fin n) (Fin k) ℚ) (y : Fin n → ℚ)
    (tol : ℚ) (M : ℕ) (beta0 : Fin k → ℚ) (htol : 0 < tol) (hM : 1 ≤ M) :
    gdRun X y 0 tol M beta0 = ⟨beta0, some beta0, 0, true, false, 1⟩ := by
  have h := gdRun_eq_of_first_hit X y 0 tol M beta0 0 (by omega)
    (tolHit_zero_alpha X y tol beta0 htol) (fun s hs => absurd hs (Nat.not_lt_zero s))
  rw [h, betaTraj_zero]
  have h1 : betaTraj X y 0 beta0 (0 + 1) = beta0 := by
    rw [betaTraj_succ, betaTraj_zero, gdStep_zero]
  rw [h1]

/-- On the 1-D problem `X = [[1]]`, `y = [2]`, `beta0 = [0]` with learning
rate `-1`, the trajectory is `beta_t = 2 - 2 * 3^t`: each update multiplies
the distance to the optimum by 3. -/
lemma divergeTraj (t : ℕ) :
    betaTraj !![(1 : ℚ)] ![2] (-1) ![0] t = fun _ => 2 - 2 * 3 ^ t := by
  induction t with
  | zero =>
    funext j
    rw [betaTraj_zero]
    simp
  | succ t ih =>
    rw [betaTraj_succ, ih]
    funext j
    simp only [gdStep, npDot, npTr, Fin.sum_univ_one, Matrix.cons_val_fin_one,
      Matrix.cons_val_zero, Matrix.of_apply, Nat.cast_one]
    ring

/-- On that divergent problem the tolerance `1e-9` is never met. -/
lemma divergeMiss (t : ℕ) :
    ¬ tolHit !![(1 : ℚ)] ![2] (-1) (1 / 1000000000) ![0] t := by
  intro h
  have hstat : distStat (gdStep !![(1 : ℚ)] ![2] (-1) (betaTraj !![(1 : ℚ)] ![2] (-1) ![0] t))
      (betaTraj !![(1 : ℚ)] ![2] (-1) ![0] t) = 8 * 9 ^ t := by
    rw [← betaTraj_succ, divergeTraj t, divergeTraj (t + 1)]
    simp only [distStat, Fin.sum_univ_one]
    rw [show (9 : ℚ) = 3 ^ 2 by norm_num, ← pow_mul, pow_succ]
    ring_nf
  have h' : distStat (gdStep !![(1 : ℚ)] ![2] (-1) (betaTraj !![(1 : ℚ)] ![2] (-1) ![0] t))
      (betaTraj !![(1 : ℚ)] ![2] (-1) ![0] t) < 1 / 1000000000 := h
  rw [hstat] at h'
  have h9 : (1 : ℚ) ≤ 9 ^ t := one_le_pow₀ (by norm_num)
  nlinarith

/-- The divergent run exhausts any positive iteration budget, ending with
`beta_star = 2 - 2 * 3^M`, the notice printed and no `beta_hat`. -/
lemma divergeRun (M : ℕ) (hM : 1 ≤ M) :
    gdRun !![(1 : ℚ)] ![2] (-1) (1 / 1000000000) M ![0] =
      ⟨fun _ => 2 - 2 * 3 ^ M, none, M - 1, false, true, M⟩ := by
  have h := gdRun_eq_of_no_hit !![(1 : ℚ)] ![2] (-1) (1 / 1000000000) M ![0] hM
    (fun t _ => divergeMiss t)
  rw [h, divergeTraj M]

lemma npDotL_ok {X : List (List ℚ)} {v : List ℚ}
    (h : ∀ row ∈ X, row.length = v.length) :
    npDotL X v = Except.ok (X.map (fun row => (List.zipWith (fun x z => x * z) row v).sum)) := by
  rw [npDotL, if_pos h]

/-- A length-1 second operand never makes the broadcasting subtraction
fail, and the result has the first operand's length. -/
lemma npColSub_ok_of_len_one {a b : List ℚ} (hb : b.length = 1) :
    ∃ c, npColSub a b = Except.ok c ∧ c.length = a.length := by
  by_cases h : a.length = b.length
  · refine ⟨_, by rw [npColSub, if_pos h], ?_⟩
    rw [List.length_zipWith, h]
    omega
  · exact ⟨_, by rw [npColSub, if_neg h, if_pos hb], by simp⟩

lemma npTrL_mem_length {X : List (List ℚ)} {row : List ℚ} (h : row ∈ npTrL X) :
    row.length = X.length := by
  simp only [npTrL, List.mem_map, List.mem_range] at h
  obtain ⟨j, _, rfl⟩ := h
  simp

lemma npTrL_length (X : List (List ℚ)) : (npTrL X).length = X.headI.length := by
  simp [npTrL]

lemma headI_length_of_rect {X : List (List ℚ)} {c : ℕ} (hX : X ≠ [])
    (hrect : ∀ row ∈ X, row.length = c) : X.headI.length = c := by
  obtain ⟨x, xs, rfl⟩ := List.exists_cons_of_ne_nil hX
  exact hrect x (List.mem_cons_self x xs)

/-- With a length-1 target every step succeeds (silent numpy broadcast)
and the estimate keeps its length. -/
lemma gdStepL_ok_of_len_one (alpha : ℚ) {X : List (List ℚ)} {y beta : List ℚ}
    (hX : X ≠ []) (hrect : ∀ row ∈ X, row.length = beta.length) (hy : y.length = 1) :
    ∃ bn, gdStepL X y alpha beta = Except.ok bn ∧ bn.length = beta.length := by
  obtain ⟨resid, hresid, hresidlen⟩ :=
    npColSub_ok_of_len_one
      (a := X.map (fun row => (List.zipWith (fun x z => x * z) row beta).sum)) hy
  have hrows : ∀ row ∈ npTrL X, row.length = resid.length := by
    intro row hrow
    rw [npTrL_mem_length hrow, hresidlen, List.length_map]
  simp only [gdStepL, npDotL_ok hrect, hresid, npDotL_ok hrows]
  refine ⟨_, rfl, ?_⟩
  rw [List.length_zipWith, List.length_map, npTrL_length,
    headI_length_of_rect hX hrect]
  omega

/-- With a length-1 target the whole loop runs without any error. -/
lemma gdLoopAuxL_ok_of_len_one {X : List (List ℚ)} {y : List ℚ} {alpha tol : ℚ}
    {M : ℕ} (hX : X ≠ []) (hy : y.length = 1) :
    ∀ fuel i beta, (∀ row ∈ X, row.length = beta.length) →
      ∃ r, gdLoopAuxL X y alpha tol M fuel i beta = Except.ok r := by
  intro fuel
  induction fuel with
  | zero => intro i beta _; exact ⟨_, rfl⟩
  | succ f ih =>
    intro i beta hrect
    obtain ⟨bn, hbn, hbnlen⟩ := gdStepL_ok_of_len_one alpha hX hrect hy
    simp only [gdLoopAuxL, hbn]
    by_cases h1 : ((List.zipWith (fun x z => (x - z) ^ 2) bn beta).sum) / 2 < tol
    · rw [if_pos h1]; exact ⟨_, rfl⟩
    · rw [if_neg h1]
      by_cases h2 : i + 1 = M
      · rw [if_pos h2]; exact ⟨_, rfl⟩
      · rw [if_neg h2]
        exact ih (i + 1) bn (fun row hrow => (hrect row hrow).trans hbnlen.symm)

/-- Any other length mismatch (neither side of the subtraction has length
one) surfaces as numpy's generic broadcasting error on the first body
execution. -/
lemma gdStepL_error_mismatch {X : List (List ℚ)} {y beta : List ℚ} {alpha : ℚ}
    (hrect : ∀ row ∈ X, row.length = beta.length)
    (hyn : y.length ≠ X.length) (hy1 : y.length ≠ 1) (hX1 : X.length ≠ 1) :
    gdStepL X y alpha beta = Except.error "operands could not be broadcast together" := by
  have h1 : ¬ (X.map (fun row => (List.zipWith (fun x z => x * z) row beta).sum)).length
      = y.length := by
    rw [List.length_map]
    exact fun h => hyn h.symm
  have h3 : ¬ (X.map (fun row => (List.zipWith (fun x z => x * z) row beta).sum)).length
      = 1 := by
    rw [List.length_map]
    exact hX1
  have hsub : npColSub (X.map (fun row => (List.zipWith (fun x z => x * z) row beta).sum)) y
      = Except.error "operands could not be broadcast together" := by
    rw [npColSub, if_neg h1, if_neg hy1, if_neg h3]
  simp only [gdStepL, npDotL_ok hrect, hsub]

/-- A misaligned row makes the dot raise numpy's alignment error. -/
lemma npDotL_error_of_misaligned {A : List (List ℚ)} {v row : List ℚ}
    (hmem : row ∈ A) (hne : row.length ≠ v.length) :
    npDotL A v = Except.error "shapes not aligned" := by
  rw [npDotL, if_neg (fun hall => hne (hall row hmem))]

/-- Against a single-row matrix (with at least one column), a target of
length other than one broadcasts silently through the subtraction, and the
failure surfaces only at the transposed product, whose `(k,1)`-shaped
rows are misaligned with the broadcast residual. -/
lemma gdStepL_error_single_row {X : List (List ℚ)} {y beta : List ℚ} {alpha : ℚ}
    (hX : X ≠ []) (hb : beta ≠ [])
    (hrect : ∀ row ∈ X, row.length = beta.length)
    (hX1 : X.length = 1) (hy1 : y.length ≠ 1) :
    gdStepL X y alpha beta = Except.error "shapes not aligned" := by
  have hpredlen :
      (X.map (fun row => (List.zipWith (fun x z => x * z) row beta).sum)).length = 1 := by
    rw [List.length_map, hX1]
  have hsub : npColSub (X.map (fun row => (List.zipWith (fun x z => x * z) row beta).sum)) y
      = Except.ok (y.map (fun z =>
          (X.map (fun row => (List.zipWith (fun x z => x * z) row beta).sum)).headI - z)) := by
    rw [npColSub, if_neg (by rw [hpredlen]; exact fun h => hy1 h.symm), if_neg hy1,
      if_pos hpredlen]
  have hc : 0 < X.headI.length := by
    rw [headI_length_of_rect hX hrect]
    exact List.length_pos.mpr hb
  have hmem : X.map (fun row => row.getD 0 0) ∈ npTrL X := by
    simp only [npTrL, List.mem_map, List.mem_range]
    exact ⟨0, hc, rfl⟩
  have hdot : npDotL (npTrL X) (y.map (fun z =>
      (X.map (fun row => (List.zipWith (fun x z => x * z) row beta).sum)).headI - z))
      = Except.error "shapes not aligned" := by
    refine npDotL_error_of_misaligned hmem ?_
    rw [List.length_map, hX1, List.length_map]
    exact fun h => hy1 h.symm
  simp only [gdStepL, npDotL_ok hrect, hsub, hdot]

/-- With a positive budget, an error in the first body execution is the
run's result. -/
lemma gdRunL_error_of_step {X : List (List ℚ)} {y beta0 : List ℚ} {alpha tol : ℚ}
    {M : ℕ} {e : String} (hstep : gdStepL X y alpha beta0 = Except.error e)
    (hM : 1 ≤ M) : gdRunL X y alpha tol M beta0 = Except.error e := by
  obtain ⟨f, rfl⟩ : ∃ f, M = f + 1 := ⟨M - 1, by omega⟩
  simp only [gdRunL, gdLoopAuxL, hstep]

/-- With a positive budget and a multi-row broadcast mismatch the whole
run raises the broadcasting error. -/
lemma gdRunL_error_mismatch {X : List (List ℚ)} {y beta0 : List ℚ} {alpha tol : ℚ}
    {M : ℕ} (hrect : ∀ row ∈ X, row.length = beta0.length)
    (hyn : y.length ≠ X.length) (hy1 : y.length ≠ 1) (hX1 : X.length ≠ 1)
    (hM : 1 ≤ M) :
    gdRunL X y alpha tol M beta0 =
      Except.error "operands could not be broadcast together" :=
  gdRunL_error_of_step (gdStepL_error_mismatch hrect hyn hy1 hX1) hM

/-- C2: at every iteration `t`, the proposed next estimate equals the
current estimate minus the learning rate times the mean-squared-error
gradient `(2/n) · Xᵗ · (X·β − y)`, where `n` is the number of rows of the
design matrix. The left side is the numpy update translated operation by
operation; the right side is the spec's formula in matrix algebra. -/
theorem gd_update_is_gradient_step {n k : ℕ} (X : Matrix (Fin n) (Fin k) ℚ)
    (y : Fin n → ℚ) (alpha : ℚ) (beta0 : Fin k → ℚ) (t : ℕ) :
    betaTraj X y alpha beta0 (t + 1) =
      betaTraj X y alpha beta0 t -
        alpha • ((2 / (n : ℚ)) • (Xᵀ *ᵥ (X *ᵥ betaTraj X y alpha beta0 t - y))) := by
  rw [betaTraj_succ, gdStep_spec]
  rfl

/-- C3: the run reports convergence exactly when some in-range iteration
brings the halved squared distance between consecutive estimates below the
tolerance; at the first such iteration the proposal is accepted as the
final `beta_hat` and no further updates are performed. -/
theorem gd_converged_iff_tolerance {n k : ℕ} (X : Matrix (Fin n) (Fin k) ℚ)
    (y : Fin n → ℚ) (alpha tol : ℚ) (M : ℕ) (beta0 : Fin k → ℚ) :
    ((gdRun X y alpha tol M beta0).converged = true ↔
      ∃ t, t < M ∧ distStat (gdStep X y alpha (betaTraj X y alpha beta0 t))
        (betaTraj X y alpha beta0 t) < tol) ∧
    (∀ t0, t0 < M →
      distStat (gdStep X y alpha (betaTraj X y alpha beta0 t0))
        (betaTraj X y alpha beta0 t0) < tol →
      (∀ s, s < t0 → ¬ distStat (gdStep X y alpha (betaTraj X y alpha beta0 s))
        (betaTraj X y alpha beta0 s) < tol) →
      (gdRun X y alpha tol M beta0).beta_hat = some (betaTraj X y alpha beta0 (t0 + 1)) ∧
      (gdRun X y alpha tol M beta0).beta_star = betaTraj X y alpha beta0 t0 ∧
      (gdRun X y alpha tol M beta0).itersExecuted = t0 + 1) := by
  constructor
  · constructor
    · intro hconv
      by_contra hno
      push_neg at hno
      rcases Nat.eq_zero_or_pos M with hM0 | hM
      · subst hM0
        exact absurd hconv (by simp [gdRun, gdLoopAux])
      · rw [gdRun_eq_of_no_hit X y alpha tol M beta0 hM
          (fun t ht => not_lt.mpr (hno t ht))] at hconv
        exact absurd hconv (by simp)
    · rintro ⟨t, htM, ht⟩
      have hex : ∃ s, tolHit X y alpha tol beta0 s := ⟨t, ht⟩
      rw [gdRun_eq_of_first_hit X y alpha tol M beta0 (Nat.find hex)
        (lt_of_le_of_lt (Nat.find_le ht) htM) (Nat.find_spec hex)
        (fun s hs => Nat.find_min hex hs)]
  · intro t0 ht0M hhit hmin
    rw [gdRun_eq_of_first_hit X y alpha tol M beta0 t0 ht0M hhit hmin]
    exact ⟨rfl, rfl, rfl⟩

/-- Witness for C3 at `X = [[1]]`, `y = [0]`, `alpha = 0`, `tol = 1`,
`M = 3`, `beta0 = [5]`: the tolerance test succeeds at the first iteration
and its proposal is accepted with one body execution. -/
theorem gd_converged_iff_tolerance_witness :
    (gdRun !![(1 : ℚ)] ![0] 0 1 3 ![5]).beta_hat =
      some (betaTraj !![(1 : ℚ)] ![0] 0 ![5] 1) ∧
    (gdRun !![(1 : ℚ)] ![0] 0 1 3 ![5]).beta_star = betaTraj !![(1 : ℚ)] ![0] 0 ![5] 0 ∧
    (gdRun !![(1 : ℚ)] ![0] 0 1 3 ![5]).itersExecuted = 1 :=
  (gd_converged_iff_tolerance !![(1 : ℚ)] ![0] 0 1 3 ![5]).2 0 (by omega)
    (by rw [betaTraj_zero, gdStep_zero, distStat_self]; norm_num)
    (fun s hs => absurd hs (Nat.not_lt_zero s))

/-- C9: the loop body executes at most `max_iter` times; since the
embedding is a structurally terminating recursion on the remaining range,
every run terminates. -/
theorem gd_iterations_le_cap {n k : ℕ} (X : Matrix (Fin n) (Fin k) ℚ)
    (y : Fin n → ℚ) (alpha tol : ℚ) (M : ℕ) (beta0 : Fin k → ℚ) :
    (gdRun X y alpha tol M beta0).itersExecuted ≤ M := by
  have h := gdLoopAux_iters_le X y alpha tol M M 0 beta0
  simpa [gdRun] using h

/-- C10: the tolerance test (with its `break`) precedes the
maximum-iterations check inside the loop body, so a converged run — even
one converging during the final permitted iteration — never produces the
maximum-iterations notice: the two terminal outcomes are mutually
exclusive and convergence takes priority. -/
theorem gd_convergence_priority {n k : ℕ} (X : Matrix (Fin n) (Fin k) ℚ)
    (y : Fin n → ℚ) (alpha tol : ℚ) (M : ℕ) (beta0 : Fin k → ℚ)
    (h : (gdRun X y alpha tol M beta0).converged = true) :
    (gdRun X y alpha tol M beta0).printedNotice = false :=
  gdLoopAux_conv_not_printed X y alpha tol M M 0 beta0 h

/-- Witness for C10 at a run that converges exactly during the final
permitted iteration (`M = 1`, stationary update): converged and silent. -/
theorem gd_convergence_priority_witness :
    (gdRun !![(1 : ℚ)] ![4] 0 1 1 ![2]).converged = true ∧
    (gdRun !![(1 : ℚ)] ![4] 0 1 1 ![2]).printedNotice = false :=
  have hc : (gdRun !![(1 : ℚ)] ![4] 0 1 1 ![2]).converged = true := by
    rw [gdRun_zero_alpha !![(1 : ℚ)] ![4] 1 1 ![2] (by norm_num) (by omega)]
  ⟨hc, gd_convergence_priority !![(1 : ℚ)] ![4] 0 1 1 ![2] hc⟩

/-- C1: evaluating the code at a run that never meets the tolerance
(`X = [[1]]`, `y = [2]`, `beta0 = [0]`, `alpha = -1`, `tol = 1e-9`,
`max_iter = 2`): the loop stops after its 2nd body execution and prints the
maximum-iterations notice, but `beta_hat` is never assigned — the cell's
trailing `print(beta_hat)` raises `NameError` — so the last computed update
`-16` is left only in the loop variable `beta_star` and is not reported. -/
theorem gd_exhaustion_leaves_beta_hat_unassigned :
    (gdRun !![(1 : ℚ)] ![2] (-1) (1 / 1000000000) 2 ![0]).printedNotice = true ∧
    (gdRun !![(1 : ℚ)] ![2] (-1) (1 / 1000000000) 2 ![0]).converged = false ∧
    (gdRun !![(1 : ℚ)] ![2] (-1) (1 / 1000000000) 2 ![0]).beta_hat = none ∧
    (gdRun !![(1 : ℚ)] ![2] (-1) (1 / 1000000000) 2 ![0]).itersExecuted = 2 ∧
    (gdRun !![(1 : ℚ)] ![2] (-1) (1 / 1000000000) 2 ![0]).beta_star 0 = -16 := by
  rw [divergeRun 2 (by omega)]
  refine ⟨rfl, rfl, rfl, rfl, by norm_num⟩

/-- C4 counterexample: with `max_iterations = 1` and a first update that
misses the tolerance, the code executes 1 iteration but reports the loop
index 0 — not an iteration count of 1 — and `beta_hat` is never assigned,
so no finite estimate is reported. -/
theorem gd_cap_one_reports_zero :
    (gdRun !![(1 : ℚ)] ![2] (-1) (1 / 1000000000) 1 ![0]).converged = false ∧
    (gdRun !![(1 : ℚ)] ![2] (-1) (1 / 1000000000) 1 ![0]).itersExecuted = 1 ∧
    (gdRun !![(1 : ℚ)] ![2] (-1) (1 / 1000000000) 1 ![0]).lastIndex = 0 ∧
    (gdRun !![(1 : ℚ)] ![2] (-1) (1 / 1000000000) 1 ![0]).beta_hat = none := by
  rw [divergeRun 1 (by omega)]
  exact ⟨rfl, rfl, rfl, rfl⟩

/-- C4 (amended): on a non-convergent run the code reports the zero-based
index of the final loop iteration, `M - 1`, one less than the `M`
iterations actually executed; the notice is printed and `beta_hat` stays
unassigned, so the final report of the estimate fails. -/
theorem gd_nonconvergence_reporting {n k : ℕ} (X : Matrix (Fin n) (Fin k) ℚ)
    (y : Fin n → ℚ) (alpha tol : ℚ) (M : ℕ) (beta0 : Fin k → ℚ) (hM : 1 ≤ M)
    (h : (gdRun X y alpha tol M beta0).converged = false) :
    (gdRun X y alpha tol M beta0).lastIndex = M - 1 ∧
    (gdRun X y alpha tol M beta0).itersExecuted = M ∧
    (gdRun X y alpha tol M beta0).beta_hat = none ∧
    (gdRun X y alpha tol M beta0).printedNotice = true := by
  rcases gdRun_cases X y alpha tol M beta0 hM with ⟨_, heq⟩ | ⟨t0, _, _, _, heq⟩
  · rw [heq]
    exact ⟨rfl, rfl, rfl, rfl⟩
  · rw [heq] at h
    exact absurd h (by simp)

/-- Witness for the amended C4 at the `max_iterations = 1` divergent run:
reported index 0, one iteration executed, no `beta_hat`, notice printed. -/
theorem gd_nonconvergence_reporting_witness :
    (gdRun !![(1 : ℚ)] ![2] (-1) (1 / 1000000000) 1 ![0]).lastIndex = 0 ∧
    (gdRun !![(1 : ℚ)] ![2] (-1) (1 / 1000000000) 1 ![0]).itersExecuted = 1 ∧
    (gdRun !![(1 : ℚ)] ![2] (-1) (1 / 1000000000) 1 ![0]).beta_hat = none ∧
    (gdRun !![(1 : ℚ)] ![2] (-1) (1 / 1000000000) 1 ![0]).printedNotice = true :=
  gd_nonconvergence_reporting !![(1 : ℚ)] ![2] (-1) (1 / 1000000000) 1 ![0]
    (by omega) (by rw [divergeRun 1 (by omega)])

/-- C5 counterexample: the non-positive learning rate 0 does not make the
run diverge until the iteration cap — the update is stationary, the
tolerance test fires at once, and the run stops converged after a single
iteration instead of the cap of 50. -/
theorem gd_zero_rate_converges_immediately :
    (gdRun !![(1 : ℚ)] ![7] 0 (1 / 1000) 50 ![3]).converged = true ∧
    (gdRun !![(1 : ℚ)] ![7] 0 (1 / 1000) 50 ![3]).itersExecuted = 1 ∧
    (gdRun !![(1 : ℚ)] ![7] 0 (1 / 1000) 50 ![3]).itersExecuted ≠ 50 := by
  rw [gdRun_zero_alpha !![(1 : ℚ)] ![7] (1 / 1000) 50 ![3] (by norm_num) (by omega)]
  exact ⟨rfl, rfl, by norm_num⟩

/-- C5 (amended): the routine performs no validation of the learning rate
and reports no error for a non-positive one, but the outcome differs
by sign: with `alpha = 0` every run converges at the first iteration
(the update is stationary), while a negative rate such as `-1` on the
problem `X = [[1]]`, `y = [2]`, `beta0 = [0]` moves against the descent
direction, never meets the tolerance, runs until any positive iteration
cap `M` and leaves the geometrically diverging value `2 - 2·3^M`. -/
theorem gd_learning_rate_no_validation :
    (∀ (n k : ℕ) (X : Matrix (Fin n) (Fin k) ℚ) (y : Fin n → ℚ) (tol : ℚ) (M : ℕ)
      (beta0 : Fin k → ℚ), 0 < tol → 1 ≤ M →
        (gdRun X y 0 tol M beta0).converged = true ∧
        (gdRun X y 0 tol M beta0).itersExecuted = 1) ∧
    (∀ M : ℕ, 1 ≤ M →
      (gdRun !![(1 : ℚ)] ![2] (-1) (1 / 1000000000) M ![0]).converged = false ∧
      (gdRun !![(1 : ℚ)] ![2] (-1) (1 / 1000000000) M ![0]).itersExecuted = M ∧
      (gdRun !![(1 : ℚ)] ![2] (-1) (1 / 1000000000) M ![0]).beta_star 0 =
        2 - 2 * 3 ^ M) := by
  constructor
  · intro n k X y tol M beta0 htol hM
    rw [gdRun_zero_alpha X y tol M beta0 htol hM]
    exact ⟨rfl, rfl⟩
  · intro M hM
    rw [divergeRun M hM]
    exact ⟨rfl, rfl, rfl⟩

/-- Witness for the amended C5: the stationary case at
`tol = 1/2`, `M = 4`, and the divergent case at `M = 3`. -/
theorem gd_learning_rate_no_validation_witness :
    ((gdRun !![(1 : ℚ)] ![9] 0 (1 / 2) 4 ![1]).converged = true ∧
      (gdRun !![(1 : ℚ)] ![9] 0 (1 / 2) 4 ![1]).itersExecuted = 1) ∧
    ((gdRun !![(1 : ℚ)] ![2] (-1) (1 / 1000000000) 3 ![0]).converged = false ∧
      (gdRun !![(1 : ℚ)] ![2] (-1) (1 / 1000000000) 3 ![0]).itersExecuted = 3 ∧
      (gdRun !![(1 : ℚ)] ![2] (-1) (1 / 1000000000) 3 ![0]).beta_star 0 =
        2 - 2 * 3 ^ 3) :=
  ⟨gd_learning_rate_no_validation.1 1 1 !![(1 : ℚ)] ![9] (1 / 2) 4 ![1]
      (by norm_num) (by omega),
    gd_learning_rate_no_validation.2 3 (by omega)⟩

/-- C6 counterexample: the loop body does perform I/O — on the final
non-converging iteration it prints the maximum-iterations notice (the
`print` sits inside the `for` body, guarded by `i + 1 == max_iter`). -/
theorem gd_loop_body_prints_notice :
    (gdRun !![(1 : ℚ)] ![2] (-1) (1 / 1000000000) 4 ![0]).printedNotice = true := by
  rw [divergeRun 4 (by omega)]

/-- C6 (amended): the only side effect inside the loop body is the
maximum-iterations notice, printed exactly on non-convergent runs (the
routine touches no other state; converged runs print nothing from the
body). -/
theorem gd_notice_iff_not_converged {n k : ℕ} (X : Matrix (Fin n) (Fin k) ℚ)
    (y : Fin n → ℚ) (alpha tol : ℚ) (M : ℕ) (beta0 : Fin k → ℚ) (hM : 1 ≤ M) :
    (gdRun X y alpha tol M beta0).printedNotice = true ↔
      (gdRun X y alpha tol M beta0).converged = false := by
  rcases gdRun_cases X y alpha tol M beta0 hM with ⟨_, heq⟩ | ⟨t0, _, _, _, heq⟩ <;>
    rw [heq] <;> simp

/-- Witness for the amended C6 at a concrete stationary run. -/
theorem gd_notice_iff_not_converged_witness :
    (gdRun !![(1 : ℚ)] ![5] 0 1 2 ![0]).printedNotice = true ↔
      (gdRun !![(1 : ℚ)] ![5] 0 1 2 ![0]).converged = false :=
  gd_notice_iff_not_converged !![(1 : ℚ)] ![5] 0 1 2 ![0] (by omega)

/-- C7 counterexample: with the single-row design matrix `X = [[1]]` (so
`XᵗX = [[1]]` and `‖XᵗX‖ = 1`), the learning rate `3/2` is below
`2/‖XᵗX‖ = 2`, yet one update strictly increases the mean squared error at
`beta = [1]` (from 1 to 4): the claimed bound misses the factor `n`. -/
theorem mse_increases_single_row :
    (3 / 2 : ℚ) < 2 / ((!![(1 : ℚ)])ᵀ * !![(1 : ℚ)]) 0 0 ∧
    mse !![(1 : ℚ)] ![0] ![1] <
      mse !![(1 : ℚ)] ![0] (gdStep !![(1 : ℚ)] ![0] (3 / 2) ![1]) := by
  constructor
  · norm_num [Matrix.mul_apply, Fin.sum_univ_one, Matrix.transpose_apply,
      Matrix.cons_val_fin_one, Matrix.cons_val_zero, Matrix.of_apply]
  · norm_num [mse, gdStep, npDot, npTr, Matrix.mulVec, Matrix.dotProduct,
      Fin.sum_univ_one, Matrix.cons_val_fin_one, Matrix.cons_val_zero,
      Matrix.of_apply]

/-- C7 (amended): along successive estimates the mean squared error is
non-increasing provided `0 ≤ alpha` and `alpha · L ≤ n`, where `L` is any
bound on the Rayleigh quotient of `XᵗX` (for `n ≥ 2` rows the spec's
condition `alpha < 2/‖XᵗX‖` implies this; the factor `n` is what the
single-row counterexample forces). -/
theorem gd_mse_monotone {n k : ℕ} (X : Matrix (Fin n) (Fin k) ℚ) (y : Fin n → ℚ)
    (alpha L : ℚ) (beta0 : Fin k → ℚ) (t : ℕ) (hn : 0 < n) (ha : 0 ≤ alpha)
    (hL : ∀ v : Fin k → ℚ, ((Xᵀ * X) *ᵥ v) ⬝ᵥ v ≤ L * (v ⬝ᵥ v))
    (haL : alpha * L ≤ (n : ℚ)) :
    mse X y (betaTraj X y alpha beta0 (t + 1)) ≤ mse X y (betaTraj X y alpha beta0 t) := by
  rw [betaTraj_succ]
  exact mse_step_le X y alpha L (betaTraj X y alpha beta0 t) hn ha hL haL

/-- Witness for the amended C7 at `X = [[1]]`, `alpha = L = 1`, `n = 1`. -/
theorem gd_mse_monotone_witness :
    mse !![(1 : ℚ)] ![0] (betaTraj !![(1 : ℚ)] ![0] 1 ![1] (0 + 1)) ≤
      mse !![(1 : ℚ)] ![0] (betaTraj !![(1 : ℚ)] ![0] 1 ![1] 0) :=
  gd_mse_monotone !![(1 : ℚ)] ![0] 1 1 ![1] 0 (by omega) (by norm_num)
    (fun v => by
      simp [Matrix.mul_apply, Matrix.mulVec, Matrix.dotProduct, Fin.sum_univ_one,
        Matrix.cons_val_fin_one, Matrix.cons_val_zero, Matrix.of_apply])
    (by norm_num)

/-- C8 counterexample: a target `y` of mismatched length 1 against the
2-row design matrix `[[1],[1]]` raises no error, let alone a
`ShapeMismatch` — the library subtraction silently broadcasts and the run
returns an ordinary result. -/
theorem gd_silent_broadcast :
    ([(0 : ℚ)] : List ℚ).length ≠ ([[(1 : ℚ)], [1]] : List (List ℚ)).length ∧
    gdRunL [[(1 : ℚ)], [1]] [0] (1 / 10) (1 / 1000000000) 1 [1] =
      Except.ok ([4 / 5], 0, false) := by
  refine ⟨by norm_num, ?_⟩
  norm_num [gdRunL, gdLoopAuxL, gdStepL, npDotL, npColSub, npTrL, List.range_succ]

/-- C8 (amended): the routine performs no shape validation of its own and
never raises a `ShapeMismatch`. A length-1 target is silently broadcast
and the run completes normally. A mismatched target against a multi-row
matrix raises numpy's generic broadcasting error at the subtraction in the
first iteration; against a single-row matrix (with at least one feature
column) the subtraction itself broadcasts silently and the failure
surfaces only as the library's alignment error from the transposed
product. -/
theorem gd_shape_mismatch_unchecked (X : List (List ℚ)) (y beta0 : List ℚ)
    (alpha tol : ℚ) (M : ℕ) (hX : X ≠ [])
    (hrect : ∀ row ∈ X, row.length = beta0.length) :
    (y.length = 1 → ∃ r, gdRunL X y alpha tol M beta0 = Except.ok r) ∧
    (y.length ≠ X.length → y.length ≠ 1 → X.length ≠ 1 → 1 ≤ M →
      gdRunL X y alpha tol M beta0 =
        Except.error "operands could not be broadcast together") ∧
    (beta0 ≠ [] → X.length = 1 → y.length ≠ 1 → 1 ≤ M →
      gdRunL X y alpha tol M beta0 = Except.error "shapes not aligned") := by
  refine ⟨?_, ?_, ?_⟩
  · intro hy
    exact gdLoopAuxL_ok_of_len_one hX hy M 0 beta0 hrect
  · intro hyn hy1 hX1 hM
    exact gdRunL_error_mismatch hrect hyn hy1 hX1 hM
  · intro hb hX1 hy1 hM
    exact gdRunL_error_of_step (gdStepL_error_single_row hX hb hrect hX1 hy1) hM

/-- Witness for the amended C8, exercising all three branches: a
mismatched length-1 target at a 2-row matrix runs to a normal result, a
length-2 target at a single-row matrix raises the alignment error from
the transposed product, and a length-2 target at a 3-row matrix raises
the broadcasting error from the subtraction. -/
theorem gd_shape_mismatch_unchecked_witness :
    (∃ r, gdRunL [[(1 : ℚ)], [1]] [0] (1 / 10) 1 2 [1] = Except.ok r) ∧
    gdRunL [[(1 : ℚ)]] [0, 0] (1 / 10) 1 2 [1] = Except.error "shapes not aligned" ∧
    gdRunL [[(1 : ℚ)], [1], [1]] [0, 0] (1 / 10) 1 2 [1] =
      Except.error "operands could not be broadcast together" :=
  ⟨(gd_shape_mismatch_unchecked [[(1 : ℚ)], [1]] [0] [1] (1 / 10) 1 2 (by simp)
      (by simp)).1 rfl,
    (gd_shape_mismatch_unchecked [[(1 : ℚ)]] [0, 0] [1] (1 / 10) 1 2 (by simp)
      (by simp)).2.2 (by simp) rfl (by simp) (by omega),
    (gd_shape_mismatch_unchecked [[(1 : ℚ)], [1], [1]] [0, 0] [1] (1 / 10) 1 2 (by simp)
      (by simp)).2.1 (by simp) (by simp) (by simp) (by omega)⟩

end GD
